import Mathlib

/-
Verification development for the dispatch-orchestration core of
FCP2/rootcumple (src/app.py): date parsing, due-row selection as computed
by the preview and send_pending routes, the per-row per-destination
dispatch loop with write-back confirmation, and the lazy initialization
coordinator.  Machine integers do not occur; sheet contents are strings,
dates are triples of naturals.
-/

/-- A civil calendar date as Python datetime.date exposes it: comparison is
lexicographic on (year, month, day). -/
structure PDate where
  year : Nat
  month : Nat
  day : Nat
deriving DecidableEq, Repr

/-- Python date ordering (lexicographic on year, month, day), as a Bool. -/
def PDate.le (a b : PDate) : Bool :=
  decide (a.year < b.year) ||
    (decide (a.year = b.year) &&
      (decide (a.month < b.month) ||
        (decide (a.month = b.month) && decide (a.day ≤ b.day))))

/-- Python str.lower restricted to the character ranges that can occur in the
fields concerned: ASCII A-Z and the Latin-1 uppercase letters U+00C0..U+00DE
(excluding the multiplication sign U+00D7) map down by 0x20, everything else
is unchanged.  Already-lowercase letters such as the í of "sí" are fixed
points, exactly as in Python. -/
def pyLowerChar (c : Char) : Char :=
  if 65 ≤ c.toNat ∧ c.toNat ≤ 90 then Char.ofNat (c.toNat + 32)
  else if 192 ≤ c.toNat ∧ c.toNat ≤ 222 ∧ c.toNat ≠ 215 then Char.ofNat (c.toNat + 32)
  else c

/-- Python str.lower on a whole string (character-wise). -/
def pyLower (s : String) : String := ⟨s.data.map pyLowerChar⟩

/-- The whitespace class Python str.strip removes (space, tab, newline,
carriage return, vertical tab, form feed). -/
def pyIsSpace (c : Char) : Bool :=
  c == ' ' || c == '\t' || c == '\n' || c == '\r' || c == '\x0b' || c == '\x0c'

/-- Strip pyIsSpace characters from both ends of a character list. -/
def pyStripList (l : List Char) : List Char :=
  ((l.dropWhile pyIsSpace).reverse.dropWhile pyIsSpace).reverse

/-- Python str.strip(). -/
def pyStrip (s : String) : String := ⟨pyStripList s.data⟩

/-- Split a character list at every slash. -/
def splitOnSlash : List Char → List (List Char)
  | [] => [[]]
  | c :: rest =>
    let r := splitOnSlash rest
    if c = '/' then [] :: r
    else
      match r with
      | [] => [[c]]
      | h :: t => (c :: h) :: t

/-- Parse a non-empty all-digit character list as a decimal natural. -/
def digitsToNat? (l : List Char) : Option Nat :=
  match l with
  | [] => none
  | _ =>
    l.foldl
      (fun acc c =>
        match acc with
        | none => none
        | some n => if c.isDigit then some (n * 10 + (c.toNat - 48)) else none)
      (some 0)

/-- Modelled from the spec: the source calls dateutil.parser.parse(s, dayfirst=True),
an external library whose code is not part of this repository.  Spec 4.1: a
day-first interpretation of the string (so "03/04/25" means day=3, month=4),
returning absent on any parse failure.  We model the numeric slash forms
dd/mm/yy and dd/mm/yyyy: day first, two-digit years resolved into the 2000s,
months 1..12 and days 1..31 accepted, anything else a parse failure. -/
def dtparseDayfirst (s : String) : Option PDate :=
  match (splitOnSlash s.data).map pyStripList with
  | [ds, ms, ys] =>
    match digitsToNat? ds, digitsToNat? ms, digitsToNat? ys with
    | some d, some m, some y =>
      if 1 ≤ d ∧ d ≤ 31 ∧ 1 ≤ m ∧ m ≤ 12 then
        some ⟨if y < 100 then 2000 + y else y, m, d⟩
      else none
    | _, _, _ => none
  | _ => none

/-- src/app.py parse_ddmmyy: s = (s or "").strip(); empty gives None; otherwise
dtparse(s, dayfirst=True) with every exception mapped to None (the Option
result of dtparseDayfirst).  The argument is Option String because callers pass
the possibly-absent result of dict.get chains. -/
def parse_ddmmyy (s : Option String) : Option PDate :=
  let t := pyStrip (s.getD "")
  if t = "" then none else dtparseDayfirst t

/-- One worksheet: the header row (wks.row_values(1)) and the data rows
(rows 2..), each a list of cell texts. -/
structure Sheet where
  headers : List String
  cells : List (List String)
deriving DecidableEq, Repr

/-- The gspread get_all_records view of one data row, queried with dict.get:
none when the header label does not occur at all, otherwise the cell text in
the label's (first) column, with missing trailing cells reading "". -/
def recordGet (hs : List String) (r : List String) (k : String) : Option String :=
  match hs.findIdx? (fun h => h == k) with
  | none => none
  | some i => some (r.getD i "")

/-- Python `a or b` on optional strings: None and "" are falsy, so the left
operand is kept only when it is a non-empty string. -/
def pyOrS (a b : Option String) : Option String :=
  match a with
  | none => b
  | some s => if s = "" then b else some s

/-- Overwrite position j of a row of cells, padding with empty cells when the
stored row is shorter than the target column. -/
def setCellInRow (r : List String) (j : Nat) (v : String) : List String :=
  if j < r.length then r.set j v
  else r ++ List.replicate (j - r.length) "" ++ [v]

/-- wks.update_cell(rowIdx, colIdx, v): 1-based sheet coordinates; row 1 is the
header row, data rows start at 2, so data row rowIdx is cells[rowIdx-2]. -/
def updateCell (s : Sheet) (rowIdx colIdx : Nat) (v : String) : Sheet :=
  ⟨s.headers, s.cells.set (rowIdx - 2) (setCellInRow (s.cells.getD (rowIdx - 2) []) (colIdx - 1) v)⟩

/-- One selected (pending) row as the preview route reports it. -/
structure SelRow where
  row : Nat
  nombre : String
  cargo : String
  fecha : PDate
deriving DecidableEq, Repr

/-- The row-local selection computation shared (textually duplicated) by the
preview and send_pending loops in src/app.py: trimmed Nombre and Cargo, the
date text through the Python or-chain over the three accepted labels, the
trimmed lowercased Enviado flag; the row passes when Enviado is not "sí", the
date parses, and the mode condition holds.  Returns the extracted
(nombre, cargo, fecha) when the row is selected. -/
def selInfo? (mode : String) (hoy : PDate) (hs : List String) (r : List String) :
    Option (String × String × PDate) :=
  let nombre := pyStrip ((recordGet hs r "Nombre").getD "")
  let cargo := pyStrip ((recordGet hs r "Cargo").getD "")
  let fecha := parse_ddmmyy (pyOrS (pyOrS (recordGet hs r "Fecha") (recordGet hs r "Fecha (dd/mm/yy)")) (recordGet hs r "Fecha(dd/mm/yy)"))
  let enviado := pyLower (pyStrip ((recordGet hs r "Enviado").getD ""))
  if enviado == "sí" || fecha.isNone then none
  else
    match fecha with
    | none => none
    | some f =>
      if (mode == "today" && decide (f = hoy)) || (mode == "until_today" && PDate.le f hoy) then
        some (nombre, cargo, f)
      else none

/-- The /preview loop of src/app.py: enumerate(records, start=2); per row,
trimmed Nombre and Cargo, the date through the or-chain of the three labels,
trimmed lowercased Enviado; continue when Enviado is "sí" or no date; append
when the mode condition holds. -/
def previewLoop (mode : String) (hoy : PDate) (hs : List String) :
    Nat → List (List String) → List SelRow
  | _, [] => []
  | idx, r :: rest =>
    let nombre := pyStrip ((recordGet hs r "Nombre").getD "")
    let cargo := pyStrip ((recordGet hs r "Cargo").getD "")
    let fecha := parse_ddmmyy (pyOrS (pyOrS (recordGet hs r "Fecha") (recordGet hs r "Fecha (dd/mm/yy)")) (recordGet hs r "Fecha(dd/mm/yy)"))
    let enviado := pyLower (pyStrip ((recordGet hs r "Enviado").getD ""))
    if enviado == "sí" || fecha.isNone then previewLoop mode hoy hs (idx + 1) rest
    else
      match fecha with
      | none => previewLoop mode hoy hs (idx + 1) rest
      | some f =>
        if (mode == "today" && decide (f = hoy)) || (mode == "until_today" && PDate.le f hoy) then
          ⟨idx, nombre, cargo, f⟩ :: previewLoop mode hoy hs (idx + 1) rest
        else previewLoop mode hoy hs (idx + 1) rest

/-- The pending list computed by /preview on one worksheet snapshot (the route
first requires the worksheet handle to be present; the 503 branch carries no
selection). -/
def previewRows (mode : String) (hoy : PDate) (s : Sheet) : List SelRow :=
  previewLoop mode hoy s.headers 2 s.cells

/-- Two-digit zero padding, as strftime prints day and month. -/
def pad2 (n : Nat) : String := if n < 10 then "0" ++ toString n else toString n

/-- Four-digit zero padding, as strftime prints the year. -/
def pad4 (n : Nat) : String :=
  if n < 10 then "000" ++ toString n
  else if n < 100 then "00" ++ toString n
  else if n < 1000 then "0" ++ toString n
  else toString n

/-- fecha.strftime of d/m/Y in src/app.py. -/
def strftimeDMY (d : PDate) : String := pad2 d.day ++ "/" ++ pad2 d.month ++ "/" ++ pad4 d.year

/-- The message body built in send_pending for one selected row. -/
def mkMsg (nombre cargo : String) (f : PDate) : String :=
  "🎉 *Recordatorio*\n- Nombre: " ++ nombre ++ "\n- Cargo: " ++ cargo ++ "\n- Fecha: " ++ strftimeDMY f

/-- Outcome oracle for the two external effects a dispatch pass performs:
sendOk tells whether send_whatsapp_text(num, msg) returns without raising,
updOk whether wks.update_cell(row, col, ...) returns without raising. -/
structure SendEnv where
  sendOk : String → String → Bool
  updOk : Nat → Nat → Bool

/-- The mutable state threaded through the send_pending row loop: the
worksheet (mutated by update_cell), the accumulated sent list, and the traces
of attempted message sends and attempted cell writes. -/
structure LoopState where
  sheet : Sheet
  sent : List (Nat × String)
  sends : List (String × String)
  writes : List (Nat × Nat × String)
deriving Repr

/-- All destinations succeeded for the row a SelRow describes (the ok_all flag
of src/app.py, as a function of the row data). -/
def rowOkAll (env : SendEnv) (dest : List String) (sr : SelRow) : Bool :=
  dest.all (fun num => env.sendOk num (mkMsg sr.nombre sr.cargo sr.fecha))

/-- The row loop of /send_pending in src/app.py, over the one records snapshot
read before the loop.  Selection is the same textually duplicated computation
as in preview; for a selected row every destination is attempted in order
(a raise only clears ok_all); on ok_all the update_cell call is attempted:
it is NOT inside the try, so a raising update_cell aborts the whole call
(Except.error, carrying the state reached so far); on success the cell is
written and the row appended to sent.  The per-row pacing sleep has no
observable effect here. -/
def dispatchLoop (env : SendEnv) (dest : List String) (mode : String) (hoy : PDate)
    (hs : List String) (col : Nat) :
    Nat → List (List String) → LoopState → Except (String × LoopState) LoopState
  | _, [], st => Except.ok st
  | idx, r :: rest, st =>
    let nombre := pyStrip ((recordGet hs r "Nombre").getD "")
    let cargo := pyStrip ((recordGet hs r "Cargo").getD "")
    let fecha := parse_ddmmyy (pyOrS (pyOrS (recordGet hs r "Fecha") (recordGet hs r "Fecha (dd/mm/yy)")) (recordGet hs r "Fecha(dd/mm/yy)"))
    let enviado := pyLower (pyStrip ((recordGet hs r "Enviado").getD ""))
    if enviado == "sí" || fecha.isNone then dispatchLoop env dest mode hoy hs col (idx + 1) rest st
    else
      match fecha with
      | none => dispatchLoop env dest mode hoy hs col (idx + 1) rest st
      | some f =>
        if (mode == "today" && decide (f = hoy)) || (mode == "until_today" && PDate.le f hoy) then
          let msg := mkMsg nombre cargo f
          let okAll := dest.all (fun num => env.sendOk num msg)
          let st1 : LoopState := { st with sends := st.sends ++ dest.map (fun num => (num, msg)) }
          if okAll then
            let st2 : LoopState := { st1 with writes := st1.writes ++ [(idx, col, "sí")] }
            if env.updOk idx col then
              dispatchLoop env dest mode hoy hs col (idx + 1) rest
                { st2 with sheet := updateCell st2.sheet idx col "sí", sent := st2.sent ++ [(idx, nombre)] }
            else Except.error ("update_cell failed", st2)
          else dispatchLoop env dest mode hoy hs col (idx + 1) rest st1
        else dispatchLoop env dest mode hoy hs col (idx + 1) rest st

/-- What one /send_pending call is observed to do: the HTTP-level result
(ok carries the sent list and the count, error carries the error text of the
precondition failure or of the escaped exception), the worksheet state after
the call, the trace of attempted sends and of attempted cell writes, and
whether the records snapshot was read at all. -/
structure DispatchOutcome where
  result : Except String (List (Nat × String) × Nat)
  finalSheet : Option Sheet
  sends : List (String × String)
  writes : List (Nat × Nat × String)
  recordsRead : Bool
deriving Repr

/-- The /send_pending route of src/app.py.  In order: empty DEST_NUMBERS gives
a 400 error, absent WebDriver a 503, absent worksheet a 503; then the header
row is read and the Enviado column located (missing gives a 400 error with no
records read); then the records snapshot is read once and the row loop runs.
The ensure_init_async trigger at the top only concerns the initialization
coordinator, modelled separately below. -/
def send_pending (env : SendEnv) (dest : List String) (mode : String) (hoy : PDate)
    (driverPresent : Bool) (wks : Option Sheet) : DispatchOutcome :=
  if dest.isEmpty then ⟨Except.error "Configura DEST_NUMBERS (comma-separated)", wks, [], [], false⟩
  else if !driverPresent then ⟨Except.error "WebDriver no inicializado todavía", wks, [], [], false⟩
  else
    match wks with
    | none => ⟨Except.error "Sheets no inicializado todavía", none, [], [], false⟩
    | some sheet =>
      match sheet.headers.findIdx? (fun h => h == "Enviado") with
      | none => ⟨Except.error "No se encontró la columna Enviado en encabezados", some sheet, [], [], false⟩
      | some i =>
        match dispatchLoop env dest mode hoy sheet.headers (i + 1) 2 sheet.cells ⟨sheet, [], [], []⟩ with
        | Except.ok st => ⟨Except.ok (st.sent, st.sent.length), some st.sheet, st.sends, st.writes, true⟩
        | Except.error e => ⟨Except.error e.1, some e.2.sheet, e.2.sends, e.2.writes, true⟩

/-- What one pass does to one data row when every table write succeeds: a
selected row whose destinations all succeed gets "sí" written into the Enviado
column (1-based column col, hence cell position col-1); every other row is
untouched. -/
def markRow (env : SendEnv) (dest : List String) (mode : String) (hoy : PDate)
    (hs : List String) (col : Nat) (r : List String) : List String :=
  match selInfo? mode hoy hs r with
  | none => r
  | some (n, c, f) =>
    if dest.all (fun num => env.sendOk num (mkMsg n c f)) then setCellInRow r (col - 1) "sí" else r

/-- Written from claim C1's words: the due-date text taken from the FIRST
PRESENT of the three accepted header labels (present = the label occurs in the
header row; an empty cell under a present label is still that label's text). -/
def firstPresentFechaText (hs : List String) (r : List String) : Option String :=
  match recordGet hs r "Fecha" with
  | some s => some s
  | none =>
    match recordGet hs r "Fecha (dd/mm/yy)" with
    | some s => some s
    | none => recordGet hs r "Fecha(dd/mm/yy)"

/-- The selection predicate exactly as claim C1 words it: trimmed-lowercased
sentFlag differs from "sí", the first-present date text parses, and the parsed
date satisfies the mode condition. -/
def claimSelectedC1 (mode : String) (hoy : PDate) (hs : List String) (r : List String) : Bool :=
  (!(pyLower (pyStrip ((recordGet hs r "Enviado").getD "")) == "sí"))
  && (match parse_ddmmyy (firstPresentFechaText hs r) with
      | none => false
      | some d => (mode == "today" && decide (d = hoy)) || (mode == "until_today" && PDate.le d hoy))

/-- The amended C1 row predicate: identical to claimSelectedC1 except that the
date text is the first Python-truthy (non-empty) value of the three labels,
which is what the or-chain in the source computes. -/
def amendedSelectedC1 (mode : String) (hoy : PDate) (hs : List String) (r : List String) : Bool :=
  (!(pyLower (pyStrip ((recordGet hs r "Enviado").getD "")) == "sí"))
  && (match parse_ddmmyy (pyOrS (pyOrS (recordGet hs r "Fecha") (recordGet hs r "Fecha (dd/mm/yy)")) (recordGet hs r "Fecha(dd/mm/yy)")) with
      | none => false
      | some d => (mode == "today" && decide (d = hoy)) || (mode == "until_today" && PDate.le d hoy))

/-- The amended C1 selection output: rows in table order, 1-based indices
starting at 2, one entry per row satisfying the amended predicate. -/
def amendedSelection (mode : String) (hoy : PDate) (s : Sheet) : List SelRow :=
  (List.range s.cells.length).filterMap (fun p =>
    match selInfo? mode hoy s.headers (s.cells.getD p []) with
    | none => none
    | some (n, c, f) => some ⟨p + 2, n, c, f⟩)

/-- The initialization coordinator state of src/app.py: the _initialized flag,
plus a count of how many times the bring-up body (the try block of init_all,
which constructs the WebDriver and the worksheet) has executed.  The source
has no distinct Failed value: a failed attempt only leaves _initialized
False. -/
structure InitState where
  initialized : Bool
  runs : Nat
deriving DecidableEq, Repr

/-- init_all of src/app.py: under the single lock, return at once when
_initialized is already True; otherwise the bring-up body runs (runs + 1) and
outcome tells whether the try block completed (sets _initialized) or raised
(only logged; _initialized stays False). -/
def init_all (outcome : Bool) (s : InitState) : InitState :=
  if s.initialized then s else { initialized := outcome, runs := s.runs + 1 }

/-- ensure_init_async of src/app.py: reads _initialized without the lock and,
when False, spawns a thread running init_all.  In the serialized schedule
modelled here the spawned thread runs to completion before the next event. -/
def ensure_init_async (outcome : Bool) (s : InitState) : InitState :=
  if s.initialized then s else init_all outcome s

/-- A sequence of readiness checks (each endpoint hit calls
ensure_init_async), each spawned bring-up running before the next check. -/
def runChecks (outs : List Bool) (s : InitState) : InitState :=
  outs.foldl (fun t o => ensure_init_async o t) s

/-- N callers that all observed _initialized = False before any bring-up ran
(reachable, since the flag is read outside the lock): all N spawn init_all and
the lock serializes the N bodies in some order; outs lists the outcome each
body would have. -/
def runInits (outs : List Bool) (s : InitState) : InitState :=
  outs.foldl (fun t o => init_all o t) s

/-- Process start: _initialized = False, no bring-up has run. -/
def initState0 : InitState := ⟨false, 0⟩

/-- A small concrete worksheet used to instantiate the general theorems. -/
def exSheet : Sheet :=
  ⟨["Nombre", "Cargo", "Fecha", "Enviado"],
   [["Ana", "Dir", "01/05/2024", ""],
    ["Bob", "Sec", "02/05/2024", "sí"],
    ["Cyd", "Ten", "bad-date", ""]]⟩

/-- exSheet after one fully successful dispatch pass with mode today and
exHoy: the one selected row got its Enviado cell written. -/
def exMarkedSheet : Sheet :=
  ⟨["Nombre", "Cargo", "Fecha", "Enviado"],
   [["Ana", "Dir", "01/05/2024", "sí"],
    ["Bob", "Sec", "02/05/2024", "sí"],
    ["Cyd", "Ten", "bad-date", ""]]⟩

/-- A concrete value of today. -/
def exHoy : PDate := ⟨2024, 5, 1⟩

/-- A one-element destination set. -/
def exDest : List String := ["5215550000001"]

/-- Every send and every cell write succeeds. -/
def envAllOk : SendEnv := ⟨fun _ _ => true, fun _ _ => true⟩

/-- Every send succeeds but every update_cell call raises. -/
def envUpdFail : SendEnv := ⟨fun _ _ => true, fun _ _ => false⟩

/-- Every send raises; cell writes would succeed. -/
def envSendFail : SendEnv := ⟨fun _ _ => false, fun _ _ => true⟩

/-- Sheet refuting claim C1: the label Fecha is present but its cell is empty,
so the first PRESENT date text is "" (unparseable), yet the or-chain in the
code falls through to the non-empty second label. -/
def cexC1Sheet : Sheet := ⟨["Fecha", "Fecha (dd/mm/yy)", "Enviado"], [["", "01/05/2024", ""]]⟩

/-- Sheet with two pending rows, used to show that a raising update_cell
aborts the pass before the second row is processed. -/
def cexC4Sheet : Sheet :=
  ⟨["Nombre", "Fecha", "Enviado"],
   [["Ana", "01/05/2024", ""],
    ["Dan", "02/05/2024", ""]]⟩

theorem getD_append_cons {α : Type} (d : α) :
    ∀ (A : List α) (r : α) (rest : List α), (A ++ r :: rest).getD A.length d = r := by
  intro A
  induction A with
  | nil => intro r rest; rfl
  | cons a A ih => intro r rest; simpa using ih r rest

theorem set_append_cons {α : Type} :
    ∀ (A : List α) (r v : α) (rest : List α), (A ++ r :: rest).set A.length v = A ++ v :: rest := by
  intro A
  induction A with
  | nil => intro r v rest; rfl
  | cons a A ih => intro r v rest; simpa using ih r v rest

theorem getD_set_self : ∀ (r : List String) (j : Nat) (v : String),
    j < r.length → (r.set j v).getD j "" = v := by
  intro r
  induction r with
  | nil => intro j v h; simp at h
  | cons a t ih =>
    intro j v h
    cases j with
    | zero => rfl
    | succ j => simpa using ih j v (by simpa using h)

theorem getD_replicate_append : ∀ (j : Nat) (v : String),
    (List.replicate j "" ++ [v]).getD j "" = v := by
  intro j
  induction j with
  | zero => intro v; rfl
  | succ j ih => intro v; simpa using ih v

theorem getD_pad : ∀ (r : List String) (j : Nat) (v : String),
    r.length ≤ j → (r ++ List.replicate (j - r.length) "" ++ [v]).getD j "" = v := by
  intro r
  induction r with
  | nil => intro j v _; simpa using getD_replicate_append j v
  | cons a t ih =>
    intro j v h
    cases j with
    | zero => simp at h
    | succ j =>
      have h' : t.length ≤ j := by simpa using h
      simpa [Nat.succ_sub_succ] using ih j v h'

theorem getD_setCellInRow (r : List String) (j : Nat) (v : String) :
    (setCellInRow r j v).getD j "" = v := by
  unfold setCellInRow
  split
  · exact getD_set_self r j v (by assumption)
  · exact getD_pad r j v (Nat.le_of_not_lt (by assumption))

theorem previewLoop_cons (mode : String) (hoy : PDate) (hs : List String) (idx : Nat)
    (r : List String) (rest : List (List String)) :
    previewLoop mode hoy hs idx (r :: rest) =
      match selInfo? mode hoy hs r with
      | none => previewLoop mode hoy hs (idx + 1) rest
      | some (n, c, f) => ⟨idx, n, c, f⟩ :: previewLoop mode hoy hs (idx + 1) rest := by
  simp only [previewLoop, selInfo?]
  split
  · rfl
  · split
    · rfl
    · split
      · rfl
      · rfl

theorem dispatchLoop_cons (env : SendEnv) (dest : List String) (mode : String) (hoy : PDate)
    (hs : List String) (col : Nat) (idx : Nat) (r : List String) (rest : List (List String))
    (st : LoopState) :
    dispatchLoop env dest mode hoy hs col idx (r :: rest) st =
      match selInfo? mode hoy hs r with
      | none => dispatchLoop env dest mode hoy hs col (idx + 1) rest st
      | some (n, c, f) =>
        let msg := mkMsg n c f
        let st1 : LoopState := { st with sends := st.sends ++ dest.map (fun num => (num, msg)) }
        if dest.all (fun num => env.sendOk num msg) then
          let st2 : LoopState := { st1 with writes := st1.writes ++ [(idx, col, "sí")] }
          if env.updOk idx col then
            dispatchLoop env dest mode hoy hs col (idx + 1) rest
              { st2 with sheet := updateCell st2.sheet idx col "sí", sent := st2.sent ++ [(idx, n)] }
          else Except.error ("update_cell failed", st2)
        else dispatchLoop env dest mode hoy hs col (idx + 1) rest st1 := by
  simp only [dispatchLoop, selInfo?]
  split
  · rfl
  · split
    · rfl
    · split
      · rfl
      · rfl

theorem dispatchLoop_spec (env : SendEnv) (dest : List String) (mode : String) (hoy : PDate)
    (hs : List String) (col : Nat) (hupd : ∀ i j, env.updOk i j = true) :
    ∀ (rows A : List (List String)) (sent : List (Nat × String)) (sends : List (String × String))
      (writes : List (Nat × Nat × String)),
      dispatchLoop env dest mode hoy hs col (A.length + 2) rows ⟨⟨hs, A ++ rows⟩, sent, sends, writes⟩
        = Except.ok
            ⟨⟨hs, A ++ rows.map (markRow env dest mode hoy hs col)⟩,
             sent ++ ((previewLoop mode hoy hs (A.length + 2) rows).filter (rowOkAll env dest)).map
                       (fun sr => (sr.row, sr.nombre)),
             sends ++ (previewLoop mode hoy hs (A.length + 2) rows).flatMap
                       (fun sr => dest.map (fun num => (num, mkMsg sr.nombre sr.cargo sr.fecha))),
             writes ++ ((previewLoop mode hoy hs (A.length + 2) rows).filter (rowOkAll env dest)).map
                       (fun sr => (sr.row, col, "sí"))⟩ := by
  intro rows
  induction rows with
  | nil =>
    intro A sent sends writes
    simp [dispatchLoop, previewLoop]
  | cons r rest ih =>
    intro A sent sends writes
    rw [dispatchLoop_cons, previewLoop_cons]
    cases hsel : selInfo? mode hoy hs r with
    | none =>
      have hmark : markRow env dest mode hoy hs col r = r := by
        simp [markRow, hsel]
      have hA : (A ++ [r]).length + 2 = A.length + 2 + 1 := by simp
      have := ih (A ++ [r]) sent sends writes
      rw [hA] at this
      simp only [List.append_assoc, List.singleton_append] at this
      simp only [this, hmark, List.map_cons]
    | some nf =>
      obtain ⟨n, c, f⟩ := nf
      have hok : rowOkAll env dest ⟨A.length + 2, n, c, f⟩
          = dest.all (fun num => env.sendOk num (mkMsg n c f)) := rfl
      by_cases hall : dest.all (fun num => env.sendOk num (mkMsg n c f)) = true
      · have hmark : markRow env dest mode hoy hs col r = setCellInRow r (col - 1) "sí" := by
          simp [markRow, hsel, hall]
        have hupd2 : updateCell ⟨hs, A ++ r :: rest⟩ (A.length + 2) col "sí"
            = ⟨hs, A ++ setCellInRow r (col - 1) "sí" :: rest⟩ := by
          simp only [updateCell, Nat.add_sub_cancel]
          rw [getD_append_cons, set_append_cons]
        have hA : (A ++ [setCellInRow r (col - 1) "sí"]).length + 2 = A.length + 2 + 1 := by simp
        have := ih (A ++ [setCellInRow r (col - 1) "sí"]) (sent ++ [(A.length + 2, n)])
          (sends ++ dest.map (fun num => (num, mkMsg n c f))) (writes ++ [(A.length + 2, col, "sí")])
        rw [hA] at this
        simp only [List.append_assoc, List.singleton_append] at this
        simp only [hall, hupd _ _, if_true, hupd2, this, hmark, List.map_cons,
          List.filter_cons, hok, List.flatMap_cons]
      · have hmark : markRow env dest mode hoy hs col r = r := by
          simp [markRow, hsel, hall]
        have hA : (A ++ [r]).length + 2 = A.length + 2 + 1 := by simp
        have := ih (A ++ [r]) sent (sends ++ dest.map (fun num => (num, mkMsg n c f))) writes
        rw [hA] at this
        simp only [List.append_assoc, List.singleton_append] at this
        simp only [hall, if_false, Bool.false_eq_true, this, hmark, List.map_cons,
          List.filter_cons, hok, List.flatMap_cons]

theorem previewLoop_mem_elim (mode : String) (hoy : PDate) (hs : List String) :
    ∀ (rows : List (List String)) (idx : Nat) (sr : SelRow),
      sr ∈ previewLoop mode hoy hs idx rows →
      ∃ p r, rows.get? p = some r ∧ sr.row = idx + p ∧
        selInfo? mode hoy hs r = some (sr.nombre, sr.cargo, sr.fecha) := by
  intro rows
  induction rows with
  | nil => intro idx sr h; simp [previewLoop] at h
  | cons r rest ih =>
    intro idx sr h
    rw [previewLoop_cons] at h
    cases hsel : selInfo? mode hoy hs r with
    | none =>
      rw [hsel] at h
      obtain ⟨p, r', hget, hrow, hinfo⟩ := ih (idx + 1) sr h
      exact ⟨p + 1, r', by simpa using hget, by omega, hinfo⟩
    | some nf =>
      obtain ⟨n, c, f⟩ := nf
      rw [hsel] at h
      rcases List.mem_cons.mp h with heq | htail
      · subst heq
        exact ⟨0, r, rfl, by simp, hsel⟩
      · obtain ⟨p, r', hget, hrow, hinfo⟩ := ih (idx + 1) sr htail
        exact ⟨p + 1, r', by simpa using hget, by omega, hinfo⟩

theorem previewLoop_mem_intro (mode : String) (hoy : PDate) (hs : List String) :
    ∀ (rows : List (List String)) (idx p : Nat) (r : List String) (n c : String) (f : PDate),
      rows.get? p = some r → selInfo? mode hoy hs r = some (n, c, f) →
      (⟨idx + p, n, c, f⟩ : SelRow) ∈ previewLoop mode hoy hs idx rows := by
  intro rows
  induction rows with
  | nil => intro idx p r n c f hget; simp at hget
  | cons r0 rest ih =>
    intro idx p r n c f hget hinfo
    rw [previewLoop_cons]
    cases p with
    | zero =>
      simp only [List.get?_cons_zero, Option.some.injEq] at hget
      subst hget
      rw [hinfo]
      simp
    | succ p =>
      simp only [List.get?_cons_succ] at hget
      have := ih (idx + 1) p r n c f hget hinfo
      have harith : idx + 1 + p = idx + (p + 1) := by omega
      rw [harith] at this
      cases hsel : selInfo? mode hoy hs r0 with
      | none => simpa using this
      | some nf => obtain ⟨n0, c0, f0⟩ := nf; simp [this]

theorem selInfo?_mode_none (mode : String) (hoy : PDate) (hs : List String) (r : List String)
    (h1 : mode ≠ "today") (h2 : mode ≠ "until_today") :
    selInfo? mode hoy hs r = none := by
  have b1 : (mode == "today") = false := by
    simpa using h1
  have b2 : (mode == "until_today") = false := by
    simpa using h2
  simp only [selInfo?, b1, b2]
  split
  · rfl
  · split
    · rfl
    · simp

theorem previewLoop_mode_empty (mode : String) (hoy : PDate) (hs : List String)
    (h1 : mode ≠ "today") (h2 : mode ≠ "until_today") :
    ∀ (rows : List (List String)) (idx : Nat), previewLoop mode hoy hs idx rows = [] := by
  intro rows
  induction rows with
  | nil => intro idx; rfl
  | cons r rest ih =>
    intro idx
    rw [previewLoop_cons, selInfo?_mode_none mode hoy hs r h1 h2]
    exact ih (idx + 1)

theorem dispatchLoop_mode_skip (env : SendEnv) (dest : List String) (mode : String) (hoy : PDate)
    (hs : List String) (col : Nat) (h1 : mode ≠ "today") (h2 : mode ≠ "until_today") :
    ∀ (rows : List (List String)) (idx : Nat) (st : LoopState),
      dispatchLoop env dest mode hoy hs col idx rows st = Except.ok st := by
  intro rows
  induction rows with
  | nil => intro idx st; rfl
  | cons r rest ih =>
    intro idx st
    rw [dispatchLoop_cons, selInfo?_mode_none mode hoy hs r h1 h2]
    exact ih (idx + 1) st

theorem pyLower_si : pyLower (pyStrip "sí") = "sí" := by decide

theorem selInfo?_setEnviado_none (mode : String) (hoy : PDate) (hs : List String)
    (ci : Nat) (hcol : hs.findIdx? (fun h => h == "Enviado") = some ci) (r : List String) :
    selInfo? mode hoy hs (setCellInRow r ci "sí") = none := by
  have henv : recordGet hs (setCellInRow r ci "sí") "Enviado" = some "sí" := by
    simp only [recordGet, hcol]
    rw [getD_setCellInRow]
  simp only [selInfo?, henv, Option.getD_some, pyLower_si, beq_self_eq_true, Bool.true_or,
    if_true]

theorem selInfo?_markRow_none (env : SendEnv) (dest : List String) (mode : String) (hoy : PDate)
    (hs : List String) (ci : Nat) (hcol : hs.findIdx? (fun h => h == "Enviado") = some ci)
    (hsend : ∀ n m, env.sendOk n m = true) (r : List String) :
    selInfo? mode hoy hs (markRow env dest mode hoy hs (ci + 1) r) = none := by
  cases hsel : selInfo? mode hoy hs r with
  | none => simpa [markRow, hsel] using hsel
  | some nf =>
    obtain ⟨n, c, f⟩ := nf
    have hall : dest.all (fun num => env.sendOk num (mkMsg n c f)) = true :=
      List.all_eq_true.mpr (fun x _ => hsend x (mkMsg n c f))
    have : markRow env dest mode hoy hs (ci + 1) r = setCellInRow r ci "sí" := by
      simp [markRow, hsel, hall]
    rw [this]
    exact selInfo?_setEnviado_none mode hoy hs ci hcol r

theorem previewLoop_map_markRow_empty (env : SendEnv) (dest : List String) (mode : String)
    (hoy : PDate) (hs : List String) (ci : Nat)
    (hcol : hs.findIdx? (fun h => h == "Enviado") = some ci)
    (hsend : ∀ n m, env.sendOk n m = true) :
    ∀ (rows : List (List String)) (idx : Nat),
      previewLoop mode hoy hs idx (rows.map (markRow env dest mode hoy hs (ci + 1))) = [] := by
  intro rows
  induction rows with
  | nil => intro idx; rfl
  | cons r rest ih =>
    intro idx
    rw [List.map_cons, previewLoop_cons,
      selInfo?_markRow_none env dest mode hoy hs ci hcol hsend r]
    exact ih (idx + 1)

theorem dispatchLoop_error_of (env : SendEnv) (dest : List String) (mode : String) (hoy : PDate)
    (hs : List String) (col : Nat) (hsend : ∀ n m, env.sendOk n m = true)
    (hupd : ∀ i j, env.updOk i j = false) :
    ∀ (rows : List (List String)) (idx : Nat) (st : LoopState),
      previewLoop mode hoy hs idx rows ≠ [] →
      ∃ e, dispatchLoop env dest mode hoy hs col idx rows st = Except.error e := by
  intro rows
  induction rows with
  | nil => intro idx st h; simp [previewLoop] at h
  | cons r rest ih =>
    intro idx st h
    rw [previewLoop_cons] at h
    rw [dispatchLoop_cons]
    cases hsel : selInfo? mode hoy hs r with
    | none =>
      rw [hsel] at h
      exact ih (idx + 1) st h
    | some nf =>
      obtain ⟨n, c, f⟩ := nf
      have hall : dest.all (fun num => env.sendOk num (mkMsg n c f)) = true :=
        List.all_eq_true.mpr (fun x _ => hsend x (mkMsg n c f))
      simp only [hall, hupd, if_true, Bool.false_eq_true, if_false]
      exact ⟨_, rfl⟩

theorem previewLoop_eq_range (mode : String) (hoy : PDate) (hs : List String) :
    ∀ (rows : List (List String)) (idx : Nat),
      previewLoop mode hoy hs idx rows
        = (List.range rows.length).filterMap (fun p =>
            match selInfo? mode hoy hs (rows.getD p []) with
            | none => none
            | some (n, c, f) => some ⟨idx + p, n, c, f⟩) := by
  intro rows
  induction rows with
  | nil => intro idx; rfl
  | cons r rest ih =>
    intro idx
    rw [previewLoop_cons]
    simp only [List.length_cons]
    rw [List.range_succ_eq_map, List.filterMap_cons, List.filterMap_map]
    have hfn : ((fun p =>
          match selInfo? mode hoy hs ((r :: rest).getD p []) with
          | none => none
          | some (n, c, f) => some (⟨idx + p, n, c, f⟩ : SelRow)) ∘ Nat.succ)
        = (fun p =>
            match selInfo? mode hoy hs (rest.getD p []) with
            | none => none
            | some (n, c, f) => some (⟨idx + 1 + p, n, c, f⟩ : SelRow)) := by
      funext p
      have harith : idx + (p + 1) = idx + 1 + p := by omega
      simp [Function.comp, List.getD_cons_succ, harith]
    rw [hfn, ← ih (idx + 1)]
    cases hsel : selInfo? mode hoy hs r with
    | none => simp [List.getD_cons_zero, hsel]
    | some nf =>
      obtain ⟨n, c, f⟩ := nf
      simp [List.getD_cons_zero, hsel]

theorem selInfo?_isSome_eq (mode : String) (hoy : PDate) (hs : List String) (r : List String) :
    (selInfo? mode hoy hs r).isSome = amendedSelectedC1 mode hoy hs r := by
  simp only [selInfo?, amendedSelectedC1]
  cases henv : (pyLower (pyStrip ((recordGet hs r "Enviado").getD "")) == "sí") with
  | true => simp [henv]
  | false =>
    cases hf : parse_ddmmyy (pyOrS (pyOrS (recordGet hs r "Fecha") (recordGet hs r "Fecha (dd/mm/yy)")) (recordGet hs r "Fecha(dd/mm/yy)")) with
    | none => simp [henv, hf]
    | some f =>
      simp only [henv, hf, Option.isNone_some, Bool.or_false, Bool.false_eq_true, if_false,
        Bool.not_false, Bool.true_and]
      split <;> simp_all

theorem send_pending_ok (env : SendEnv) (dest : List String) (mode : String) (hoy : PDate)
    (hs : List String) (cells : List (List String)) (ci : Nat)
    (hupd : ∀ i j, env.updOk i j = true) (hdest : dest ≠ [])
    (hci : hs.findIdx? (fun h => h == "Enviado") = some ci) :
    send_pending env dest mode hoy true (some ⟨hs, cells⟩)
      = ⟨Except.ok
            (((previewLoop mode hoy hs 2 cells).filter (rowOkAll env dest)).map
               (fun sr => (sr.row, sr.nombre)),
             (((previewLoop mode hoy hs 2 cells).filter (rowOkAll env dest)).map
               (fun sr => (sr.row, sr.nombre))).length),
         some ⟨hs, cells.map (markRow env dest mode hoy hs (ci + 1))⟩,
         (previewLoop mode hoy hs 2 cells).flatMap
           (fun sr => dest.map (fun num => (num, mkMsg sr.nombre sr.cargo sr.fecha))),
         ((previewLoop mode hoy hs 2 cells).filter (rowOkAll env dest)).map
           (fun sr => (sr.row, ci + 1, "sí")),
         true⟩ := by
  have hd : dest.isEmpty = false := by
    cases dest with
    | nil => exact absurd rfl hdest
    | cons a l => rfl
  have hspec := dispatchLoop_spec env dest mode hoy hs (ci + 1) hupd cells [] [] [] []
  simp only [List.length_nil, Nat.zero_add, List.nil_append] at hspec
  simp only [send_pending, hd, Bool.false_eq_true, if_false, Bool.not_true, hci]
  rw [hspec]

theorem previewLoop_row_inj (mode : String) (hoy : PDate) (hs : List String)
    (rows : List (List String)) (idx : Nat) (sr sr' : SelRow)
    (h1 : sr ∈ previewLoop mode hoy hs idx rows) (h2 : sr' ∈ previewLoop mode hoy hs idx rows)
    (hrow : sr.row = sr'.row) : sr = sr' := by
  obtain ⟨p, r, hget, hr, hinfo⟩ := previewLoop_mem_elim mode hoy hs rows idx sr h1
  obtain ⟨p', r', hget', hr', hinfo'⟩ := previewLoop_mem_elim mode hoy hs rows idx sr' h2
  have hp : p = p' := by omega
  subst hp
  rw [hget] at hget'
  cases hget'
  rw [hinfo] at hinfo'
  cases sr
  cases sr'
  simp_all

theorem runInits_initialized : ∀ (outs : List Bool) (s : InitState),
    s.initialized = true → runInits outs s = s := by
  intro outs
  induction outs with
  | nil => intro s _; rfl
  | cons o rest ih =>
    intro s h
    have : init_all o s = s := by simp [init_all, h]
    simp only [runInits, List.foldl_cons]
    rw [show (init_all o s) = s from this] at *
    exact ih s h

/-- C6: parse_ddmmyy is a total function on (possibly absent) strings: absent
and empty (after stripping) input give absent, every input gives either a date
or absent (no exception escapes: the embedding returns an Option), input is
interpreted day-first so "03/04/25" is day 3 of month 4 of 2025, and
unparseable input gives absent. -/
theorem C6_parse_ddmmyy_total_dayfirst :
    parse_ddmmyy none = none
  ∧ (∀ s : String, pyStrip s = "" → parse_ddmmyy (some s) = none)
  ∧ (∀ s : Option String, parse_ddmmyy s = none ∨ ∃ d, parse_ddmmyy s = some d)
  ∧ parse_ddmmyy (some "03/04/25") = some ⟨2025, 4, 3⟩
  ∧ parse_ddmmyy (some "bad-date") = none := by
  refine ⟨rfl, ?_, ?_, by decide, by decide⟩
  · intro s h
    simp [parse_ddmmyy, h]
  · intro s
    cases hp : parse_ddmmyy s with
    | none => exact Or.inl rfl
    | some d => exact Or.inr ⟨d, rfl⟩

/-- C6 witness: the empty-after-strip clause at a concrete input. -/
theorem C6_witness : parse_ddmmyy (some "  ") = none :=
  C6_parse_ddmmyy_total_dayfirst.2.1 "  " (by decide)

/-- C9: whenever /send_pending returns a result (preconditions passed), the
count field equals the length of the sent list. -/
theorem C9_count_matches_sent (env : SendEnv) (dest : List String) (mode : String) (hoy : PDate)
    (driver : Bool) (wks : Option Sheet) (lst : List (Nat × String)) (n : Nat)
    (h : (send_pending env dest mode hoy driver wks).result = Except.ok (lst, n)) :
    n = lst.length := by
  unfold send_pending at h
  repeat' split at h
  all_goals simp at h
  obtain ⟨h1, h2⟩ := h
  subst h1
  subst h2
  rfl

/-- C9 witness: the count 1 returned on the example sheet is the length of its
sent list. -/
theorem C9_witness : (1 : Nat) = [((2 : Nat), ("Ana" : String))].length :=
  C9_count_matches_sent envAllOk exDest "today" exHoy true (some exSheet)
    [(2, "Ana")] 1 (by rfl)

/-- C10: with a selection mode other than today and until_today, the selection
predicate is false for every row: preview returns an empty pending list and
send_pending attempts no message send and no cell write, for every table
snapshot, destination set, gateway state and value of today. -/
theorem C10_unknown_mode_selects_nothing (env : SendEnv) (dest : List String) (mode : String)
    (hoy : PDate) (s : Sheet) (driver : Bool) (wks : Option Sheet)
    (h1 : mode ≠ "today") (h2 : mode ≠ "until_today") :
    previewRows mode hoy s = []
  ∧ (send_pending env dest mode hoy driver wks).sends = []
  ∧ (send_pending env dest mode hoy driver wks).writes = [] := by
  refine ⟨previewLoop_mode_empty mode hoy s.headers h1 h2 s.cells 2, ?_⟩
  unfold send_pending
  split
  · exact ⟨rfl, rfl⟩
  · split
    · exact ⟨rfl, rfl⟩
    · split
      · exact ⟨rfl, rfl⟩
      · split
        · exact ⟨rfl, rfl⟩
        · rw [dispatchLoop_mode_skip env dest mode hoy _ _ h1 h2]
          exact ⟨by simp, by simp⟩

/-- C10 witness: a misconfigured mode value on the example sheet. -/
theorem C10_witness :
    previewRows "tomorrow" exHoy exSheet = []
  ∧ (send_pending envAllOk exDest "tomorrow" exHoy true (some exSheet)).sends = []
  ∧ (send_pending envAllOk exDest "tomorrow" exHoy true (some exSheet)).writes = [] :=
  C10_unknown_mode_selects_nothing envAllOk exDest "tomorrow" exHoy exSheet true (some exSheet)
    (by decide) (by decide)

/-- C3 counterexample: a first readiness check whose bring-up fails leaves the
flag false after one body run (the state the spec calls Failed); the very next
readiness check re-runs the bring-up body, so after the failure the body runs
again, contradicting claim C3's never-re-attempts assertion. -/
theorem C3_counterexample :
    runChecks [false] initState0 = ⟨false, 1⟩
  ∧ (runChecks [false, true] initState0).runs = 2 := by decide

/-- C3 amended: after a failed bring-up the initialized flag is still false
and a readiness check while the flag is false re-attempts bring-up, exactly
one body execution per check, until an attempt succeeds; once initialized,
checks never run the body again. -/
theorem C3_failed_bringup_is_retried (o : Bool) (s : InitState) :
    (s.initialized = false → ensure_init_async o s = ⟨o, s.runs + 1⟩)
  ∧ (s.initialized = true → ensure_init_async o s = s) := by
  constructor
  · intro h
    simp [ensure_init_async, init_all, h]
  · intro h
    simp [ensure_init_async, h]

/-- C3 witness: one retried check after a failure, one no-op check after
success. -/
theorem C3_witness :
    ensure_init_async true ⟨false, 1⟩ = ⟨true, 2⟩
  ∧ ensure_init_async false ⟨true, 5⟩ = ⟨true, 5⟩ :=
  ⟨(C3_failed_bringup_is_retried true ⟨false, 1⟩).1 rfl,
   (C3_failed_bringup_is_retried false ⟨true, 5⟩).2 rfl⟩

/-- C8 counterexample: two concurrent callers both observe the flag false and
spawn; the first bring-up attempt fails, so the serialized second attempt runs
the body again: two bring-up executions, not exactly one. -/
theorem C8_counterexample : (runInits [false, true] initState0).runs = 2 := by decide

/-- C8 amended: N concurrent ensure_init_async callers cause exactly one
bring-up execution provided the bring-up attempt succeeds (the lock serializes
the spawned bodies and every body after the first success returns at once);
after failures, further callers re-attempt. -/
theorem C8_single_execution_when_successful (n : Nat) (hn : 1 ≤ n) :
    (runInits (List.replicate n true) initState0).runs = 1
  ∧ (runInits (List.replicate n true) initState0).initialized = true := by
  cases n with
  | zero => simp at hn
  | succ m =>
    have hstep : runInits (List.replicate (m + 1) true) initState0
        = runInits (List.replicate m true) (init_all true initState0) := by
      simp [runInits, List.replicate_succ]
    have hone : init_all true initState0 = ⟨true, 1⟩ := rfl
    rw [hstep, hone, runInits_initialized (List.replicate m true) ⟨true, 1⟩ rfl]
    exact ⟨rfl, rfl⟩

/-- C8 witness: three concurrent callers, successful bring-up. -/
theorem C8_witness :
    (runInits (List.replicate 3 true) initState0).runs = 1
  ∧ (runInits (List.replicate 3 true) initState0).initialized = true :=
  C8_single_execution_when_successful 3 (by decide)

/-- C5: with an empty destination set, or an absent WebDriver, or an absent
worksheet, or a header row without an Enviado column, /send_pending returns a
precondition-failure result without reading the records, sending any message
or writing any cell. -/
theorem C5_precondition_failures (env : SendEnv) (dest : List String) (mode : String)
    (hoy : PDate) (driver : Bool) (wks : Option Sheet)
    (h : dest = [] ∨ driver = false ∨ wks = none
        ∨ ∃ s, wks = some s ∧ s.headers.findIdx? (fun x => x == "Enviado") = none) :
    (∃ e, (send_pending env dest mode hoy driver wks).result = Except.error e)
  ∧ (send_pending env dest mode hoy driver wks).sends = []
  ∧ (send_pending env dest mode hoy driver wks).writes = []
  ∧ (send_pending env dest mode hoy driver wks).recordsRead = false := by
  rcases h with h | h | h | ⟨s, hw, hcol⟩
  · subst h
    exact ⟨⟨_, rfl⟩, rfl, rfl, rfl⟩
  · subst h
    cases dest with
    | nil => exact ⟨⟨_, rfl⟩, rfl, rfl, rfl⟩
    | cons a l => exact ⟨⟨_, rfl⟩, rfl, rfl, rfl⟩
  · subst h
    cases dest with
    | nil => exact ⟨⟨_, rfl⟩, rfl, rfl, rfl⟩
    | cons a l =>
      cases driver with
      | false => exact ⟨⟨_, rfl⟩, rfl, rfl, rfl⟩
      | true => exact ⟨⟨_, rfl⟩, rfl, rfl, rfl⟩
  · subst hw
    cases dest with
    | nil => exact ⟨⟨_, rfl⟩, rfl, rfl, rfl⟩
    | cons a l =>
      cases driver with
      | false => exact ⟨⟨_, rfl⟩, rfl, rfl, rfl⟩
      | true =>
        simp only [send_pending, List.isEmpty_cons, Bool.false_eq_true, if_false,
          Bool.not_true, hcol]
        exact ⟨⟨"No se encontró la columna Enviado en encabezados", by simp⟩,
          by simp, by simp, by simp⟩

/-- C5 witness: the missing-Enviado case at a concrete sheet. -/
theorem C5_witness :
    (∃ e, (send_pending envAllOk exDest "today" exHoy true
            (some ⟨["Nombre", "Fecha"], [["Ana", "01/05/2024"]]⟩)).result = Except.error e)
  ∧ (send_pending envAllOk exDest "today" exHoy true
      (some ⟨["Nombre", "Fecha"], [["Ana", "01/05/2024"]]⟩)).sends = []
  ∧ (send_pending envAllOk exDest "today" exHoy true
      (some ⟨["Nombre", "Fecha"], [["Ana", "01/05/2024"]]⟩)).writes = []
  ∧ (send_pending envAllOk exDest "today" exHoy true
      (some ⟨["Nombre", "Fecha"], [["Ana", "01/05/2024"]]⟩)).recordsRead = false :=
  C5_precondition_failures envAllOk exDest "today" exHoy true
    (some ⟨["Nombre", "Fecha"], [["Ana", "01/05/2024"]]⟩)
    (Or.inr (Or.inr (Or.inr ⟨_, rfl, by decide⟩)))

/-- C1 counterexample: on cexC1Sheet with mode today, the selection computed by
the code (previewRows) includes row 2, although the claim's predicate
(claimSelectedC1, reading the date text from the first PRESENT label) excludes
that row: the first present label Fecha holds the empty text, which does not
parse.  The code instead falls through Python-or to the non-empty second
label. -/
theorem C1_counterexample :
    previewRows "today" exHoy cexC1Sheet = [⟨2, "", "", ⟨2024, 5, 1⟩⟩]
  ∧ firstPresentFechaText cexC1Sheet.headers [("" : String), "01/05/2024", ""] = some ""
  ∧ claimSelectedC1 "today" exHoy cexC1Sheet.headers [("" : String), "01/05/2024", ""] = false := by
  decide

/-- C1 amended: the selection (computed identically by preview and by the
inline filter of send_pending) includes a row iff its trimmed-lowercased
Enviado differs from "sí", its due-date text taken as the first NON-EMPTY
(Python-truthy) value of the three accepted header labels parses, and the
parsed date satisfies the mode condition; the output lists rows in table order
with 1-based indices starting at 2 (amendedSelection), and the dispatch route
confirms exactly the same rows when every send and write succeeds. -/
theorem C1_selection_amended (mode : String) (hoy : PDate) (s : Sheet) (env : SendEnv)
    (dest : List String) (hsend : ∀ n m, env.sendOk n m = true)
    (hupd : ∀ i j, env.updOk i j = true) :
    previewRows mode hoy s = amendedSelection mode hoy s
  ∧ (∀ r : List String,
      (selInfo? mode hoy s.headers r).isSome = amendedSelectedC1 mode hoy s.headers r)
  ∧ (dest ≠ [] → ∀ ci, s.headers.findIdx? (fun h => h == "Enviado") = some ci →
      (send_pending env dest mode hoy true (some s)).result
        = Except.ok ((previewRows mode hoy s).map (fun x => (x.row, x.nombre)),
                     (previewRows mode hoy s).length)) := by
  obtain ⟨hs, cells⟩ := s
  refine ⟨?_, fun r => selInfo?_isSome_eq mode hoy hs r, ?_⟩
  · show previewLoop mode hoy hs 2 cells = amendedSelection mode hoy ⟨hs, cells⟩
    rw [previewLoop_eq_range mode hoy hs cells 2]
    unfold amendedSelection
    have hfun : (fun p =>
          match selInfo? mode hoy hs (cells.getD p []) with
          | none => none
          | some (n, c, f) => some (⟨2 + p, n, c, f⟩ : SelRow))
        = (fun p =>
            match selInfo? mode hoy hs (cells.getD p []) with
            | none => none
            | some (n, c, f) => some (⟨p + 2, n, c, f⟩ : SelRow)) := by
      funext p
      cases hsel : selInfo? mode hoy hs (cells.getD p []) with
      | none => rfl
      | some nf =>
        obtain ⟨n, c, f⟩ := nf
        simp [Nat.add_comm]
    rw [hfun]
  · intro hdest ci hci
    rw [send_pending_ok env dest mode hoy hs cells ci hupd hdest hci]
    have hfil : (previewLoop mode hoy hs 2 cells).filter (rowOkAll env dest)
        = previewLoop mode hoy hs 2 cells :=
      List.filter_eq_self.mpr (fun a _ =>
        List.all_eq_true.mpr (fun x _ => hsend x (mkMsg a.nombre a.cargo a.fecha)))
    show Except.ok _ = _
    rw [hfil]
    simp [previewRows]

/-- C1 witness: the amended statement instantiated on the example sheet, with
the predicate clause evaluated at its first data row. -/
theorem C1_witness :
    previewRows "today" exHoy exSheet = amendedSelection "today" exHoy exSheet
  ∧ (selInfo? "today" exHoy exSheet.headers ["Ana", "Dir", "01/05/2024", ""]).isSome
      = amendedSelectedC1 "today" exHoy exSheet.headers ["Ana", "Dir", "01/05/2024", ""]
  ∧ (send_pending envAllOk exDest "today" exHoy true (some exSheet)).result
      = Except.ok ((previewRows "today" exHoy exSheet).map (fun x => (x.row, x.nombre)),
                   (previewRows "today" exHoy exSheet).length) := by
  have h := C1_selection_amended "today" exHoy exSheet envAllOk exDest
    (fun _ _ => rfl) (fun _ _ => rfl)
  exact ⟨h.1, h.2.1 ["Ana", "Dir", "01/05/2024", ""], h.2.2 (by decide) 3 (by decide)⟩

/-- C4 counterexample: on a sheet with two pending rows and an update_cell
that raises, the dispatch call aborts at the first confirmation write: the
result is an error (the exception propagates out of the row loop instead of
being recovered locally), and the second pending row is never processed (only
the first row's single destination send was attempted). -/
theorem C4_counterexample :
    (send_pending envUpdFail exDest "until_today" ⟨2024, 5, 3⟩ true (some cexC4Sheet)).result
      = Except.error "update_cell failed"
  ∧ (send_pending envUpdFail exDest "until_today" ⟨2024, 5, 3⟩ true (some cexC4Sheet)).sends.length
      = 1
  ∧ (previewRows "until_today" ⟨2024, 5, 3⟩ cexC4Sheet).length = 2 := by
  refine ⟨rfl, rfl, by decide⟩

/-- C4 amended: within one send_pending call, errors raised by per-destination
sends are recovered locally: provided every confirmation table write succeeds,
the loop runs through every selected row (all its destinations attempted, in
order) and the call returns a normal result whatever sends fail.  A table
write failure when confirming, however, is NOT recovered: the exception
propagates out of the call, aborting the remaining rows. -/
theorem C4_send_errors_recovered_write_errors_abort (mode : String) (hoy : PDate) (s : Sheet)
    (env : SendEnv) (dest : List String) (ci : Nat) (hupd : ∀ i j, env.updOk i j = true)
    (hdest : dest ≠ []) (hci : s.headers.findIdx? (fun h => h == "Enviado") = some ci) :
    (∃ lst : List (Nat × String),
      (send_pending env dest mode hoy true (some s)).result = Except.ok (lst, lst.length))
  ∧ (send_pending env dest mode hoy true (some s)).sends
      = (previewRows mode hoy s).flatMap
          (fun sr => dest.map (fun num => (num, mkMsg sr.nombre sr.cargo sr.fecha)))
  ∧ (∀ env' : SendEnv, (∀ n m, env'.sendOk n m = true) → (∀ i j, env'.updOk i j = false) →
      previewRows mode hoy s ≠ [] →
      ∃ e, (send_pending env' dest mode hoy true (some s)).result = Except.error e) := by
  obtain ⟨hs, cells⟩ := s
  have hout := send_pending_ok env dest mode hoy hs cells ci hupd hdest hci
  refine ⟨⟨_, by rw [hout]⟩, by rw [hout]; rfl, ?_⟩
  intro env' hsend' hupd' hne
  have hd : dest.isEmpty = false := by
    cases dest with
    | nil => exact absurd rfl hdest
    | cons a l => rfl
  obtain ⟨e, he⟩ := dispatchLoop_error_of env' dest mode hoy hs (ci + 1) hsend' hupd'
    cells 2 ⟨⟨hs, cells⟩, [], [], []⟩ hne
  refine ⟨e.1, ?_⟩
  simp only [send_pending, hd, Bool.false_eq_true, if_false, Bool.not_true, hci, he]

/-- C4 witness: on the example sheet, an environment whose sends all raise
still returns a normal (empty) result with the full send trace, while an
environment whose update_cell raises yields an error result. -/
theorem C4_witness :
    (∃ lst : List (Nat × String),
      (send_pending envSendFail exDest "today" exHoy true (some exSheet)).result
        = Except.ok (lst, lst.length))
  ∧ (send_pending envSendFail exDest "today" exHoy true (some exSheet)).sends
      = (previewRows "today" exHoy exSheet).flatMap
          (fun sr => exDest.map (fun num => (num, mkMsg sr.nombre sr.cargo sr.fecha)))
  ∧ (∃ e, (send_pending envUpdFail exDest "today" exHoy true (some exSheet)).result
        = Except.error e) := by
  have h := C4_send_errors_recovered_write_errors_abort "today" exHoy exSheet envSendFail
    exDest 3 (fun _ _ => rfl) (by decide) (by decide)
  exact ⟨h.1, h.2.1, h.2.2 envUpdFail (fun _ _ => rfl) (fun _ _ => rfl) (by decide)⟩

/-- C7: running send_pending again immediately after a fully successful pass,
on the worksheet state that pass produced (unchanged except for the "sí"
markers it wrote), yields an empty sent list and count 0, with no message sent
and no cell written: the written marker is excluded by the trim-lowercase
comparison of the selection, so no row is dispatched twice. -/
theorem C7_rerun_after_success_is_noop (mode : String) (hoy : PDate) (s : Sheet) (env : SendEnv)
    (dest : List String) (ci : Nat)
    (hsend : ∀ n m, env.sendOk n m = true) (hupd : ∀ i j, env.updOk i j = true)
    (hdest : dest ≠ []) (hci : s.headers.findIdx? (fun h => h == "Enviado") = some ci)
    (s' : Sheet) (hrun : (send_pending env dest mode hoy true (some s)).finalSheet = some s') :
    (send_pending env dest mode hoy true (some s')).result = Except.ok ([], 0)
  ∧ (send_pending env dest mode hoy true (some s')).sends = []
  ∧ (send_pending env dest mode hoy true (some s')).writes = [] := by
  obtain ⟨hs, cells⟩ := s
  have hout := send_pending_ok env dest mode hoy hs cells ci hupd hdest hci
  rw [hout] at hrun
  simp only [Option.some.injEq] at hrun
  subst hrun
  have hout2 := send_pending_ok env dest mode hoy hs
    (cells.map (markRow env dest mode hoy hs (ci + 1))) ci hupd hdest hci
  rw [previewLoop_map_markRow_empty env dest mode hoy hs ci hci hsend cells 2] at hout2
  simp only [List.filter_nil, List.map_nil, List.flatMap_nil, List.length_nil] at hout2
  rw [hout2]
  exact ⟨rfl, rfl, rfl⟩

/-- C7 witness: the example sheet after its successful pass (exMarkedSheet)
yields an empty second pass. -/
theorem C7_witness :
    (send_pending envAllOk exDest "today" exHoy true (some exMarkedSheet)).result
      = Except.ok ([], 0)
  ∧ (send_pending envAllOk exDest "today" exHoy true (some exMarkedSheet)).sends = []
  ∧ (send_pending envAllOk exDest "today" exHoy true (some exMarkedSheet)).writes = [] :=
  C7_rerun_after_success_is_noop "today" exHoy exSheet envAllOk exDest 3
    (fun _ _ => rfl) (fun _ _ => rfl) (by decide) (by decide) exMarkedSheet (by decide)

/-- C2: in a send_pending pass whose confirmation writes succeed, a selected
row gets its Enviado cell written with "sí" and its (rowIndex, name) appended
to the sent list exactly when every destination send for that row succeeded;
when one destination fails, the row's cells are untouched after the pass and
the row is still selected (remains pending for a future invocation). -/
theorem C2_confirm_iff_all_destinations (mode : String) (hoy : PDate) (s : Sheet)
    (env : SendEnv) (dest : List String) (ci : Nat)
    (hupd : ∀ i j, env.updOk i j = true) (hdest : dest ≠ [])
    (hci : s.headers.findIdx? (fun h => h == "Enviado") = some ci)
    (sr : SelRow) (hsr : sr ∈ previewRows mode hoy s) :
    ((sr.row, ci + 1, "sí") ∈ (send_pending env dest mode hoy true (some s)).writes
        ↔ rowOkAll env dest sr = true)
  ∧ (∀ lst n, (send_pending env dest mode hoy true (some s)).result = Except.ok (lst, n) →
      ((sr.row, sr.nombre) ∈ lst ↔ rowOkAll env dest sr = true))
  ∧ (rowOkAll env dest sr = false → ∀ s',
      (send_pending env dest mode hoy true (some s)).finalSheet = some s' →
      s'.cells.get? (sr.row - 2) = s.cells.get? (sr.row - 2)
      ∧ sr ∈ previewRows mode hoy s') := by
  obtain ⟨hs, cells⟩ := s
  have hout := send_pending_ok env dest mode hoy hs cells ci hupd hdest hci
  have hsr' : sr ∈ previewLoop mode hoy hs 2 cells := hsr
  refine ⟨?_, ?_, ?_⟩
  · rw [hout]
    simp only [List.mem_map, List.mem_filter]
    constructor
    · rintro ⟨a, ⟨ha, hok⟩, heq⟩
      simp only [Prod.mk.injEq] at heq
      have ha_eq := previewLoop_row_inj mode hoy hs cells 2 a sr ha hsr' heq.1
      rw [← ha_eq]
      exact hok
    · intro hok
      exact ⟨sr, ⟨hsr', hok⟩, rfl⟩
  · intro lst n h
    rw [hout] at h
    simp only [Except.ok.injEq, Prod.mk.injEq] at h
    rw [← h.1]
    simp only [List.mem_map, List.mem_filter]
    constructor
    · rintro ⟨a, ⟨ha, hok⟩, heq⟩
      simp only [Prod.mk.injEq] at heq
      have ha_eq := previewLoop_row_inj mode hoy hs cells 2 a sr ha hsr' heq.1
      rw [← ha_eq]
      exact hok
    · intro hok
      exact ⟨sr, ⟨hsr', hok⟩, rfl⟩
  · intro hok s' h
    rw [hout] at h
    simp only [Option.some.injEq] at h
    subst h
    obtain ⟨p, r, hget, hr, hinfo⟩ := previewLoop_mem_elim mode hoy hs cells 2 sr hsr'
    have hok' : dest.all (fun num => env.sendOk num (mkMsg sr.nombre sr.cargo sr.fecha))
        = false := hok
    have hmr : markRow env dest mode hoy hs (ci + 1) r = r := by
      simp [markRow, hinfo, hok']
    have hp : sr.row - 2 = p := by omega
    constructor
    · rw [hp]
      simp only [List.get?_map, hget, Option.map_some', hmr]
    · have hget' : (cells.map (markRow env dest mode hoy hs (ci + 1))).get? p = some r := by
        simp only [List.get?_map, hget, Option.map_some', hmr]
      have hmem := previewLoop_mem_intro mode hoy hs
        (cells.map (markRow env dest mode hoy hs (ci + 1))) 2 p r
        sr.nombre sr.cargo sr.fecha hget' hinfo
      have hsr_eq : sr = ⟨2 + p, sr.nombre, sr.cargo, sr.fecha⟩ := by
        cases sr
        simp_all
      rw [hsr_eq]
      exact hmem

/-- C2 witness: the selected row of the example sheet under an all-success
environment: its write is attempted and it appears in the sent list, both
equivalent to all destinations having succeeded. -/
theorem C2_witness :
    (((2 : Nat), (4 : Nat), ("sí" : String))
        ∈ (send_pending envAllOk exDest "today" exHoy true (some exSheet)).writes
      ↔ rowOkAll envAllOk exDest ⟨2, "Ana", "Dir", ⟨2024, 5, 1⟩⟩ = true)
  ∧ (((2 : Nat), ("Ana" : String)) ∈ [((2 : Nat), ("Ana" : String))]
      ↔ rowOkAll envAllOk exDest ⟨2, "Ana", "Dir", ⟨2024, 5, 1⟩⟩ = true) := by
  have h := C2_confirm_iff_all_destinations "today" exHoy exSheet envAllOk exDest 3
    (fun _ _ => rfl) (by decide) (by decide) ⟨2, "Ana", "Dir", ⟨2024, 5, 1⟩⟩ (by decide)
  exact ⟨h.1, h.2.1 [(2, "Ana")] 1 (by rfl)⟩
